import Mathlib

/-
Verification of the record-level concurrency-control core of the FASTER
C wrapper (src/cc/src/core/faster-c.cc): the 64-bit generation lock
(GenLock / AtomicGenLock), the record slot (Value), and the mutation and
read protocols built on them (PutAtomic, RmwAtomic, GetAtomic).

The embedding is a shallow one.  The 64-bit control word of the
generation lock is a natural number kept below 2^64; the bit fields of
GenLock (gen_number : 62 bits at offset 0, locked : bit 62,
replaced : bit 63) are extracted arithmetically.  fetch_add / fetch_sub
wrap modulo 2^64 exactly as the hardware does.  A record slot is a
structure holding the control word, the size_ field
(sizeof(Value) + capacity, with sizeof(Value) = 24 on the layout used by
the source), the length_ field and the trailing buffer, modelled as a
list of bytes of length equal to the capacity.  Payloads are lists of
bytes, so a payload's length is the length of an actual byte string.

The protocols are modelled sequentially: a single call runs with no
interference, so the spin loop of PutAtomic / RmwAtomic either exits on
its first try_lock attempt or spins forever (the slot is locked and
nobody will ever release it); the forever-spinning case is represented
by Option.none.  A separate fine-grained interleaving model (one writer,
one reader, each memory access a separate atomic step) is built further
down for the seqlock torn-read analysis of GetAtomic.
-/

namespace FasterC

/-- 2^64, the modulus of the 64-bit control word. -/
def W64 : Nat := 2 ^ 64

/-- Extract the gen_number field (bits 0..61) of a control word. -/
def gen_number (c : Nat) : Nat := c % 2 ^ 62

/-- Extract the locked field (bit 62) of a control word. -/
def lockedBit (c : Nat) : Bool := decide (c / 2 ^ 62 % 2 = 1)

/-- Extract the replaced field (bit 63) of a control word. -/
def replacedBit (c : Nat) : Bool := decide (c / 2 ^ 63 % 2 = 1)

/-- Result of AtomicGenLock::try_lock: the returned success flag, the
by-reference `replaced` out-parameter, and the control word after the
call. -/
structure TryLockResult where
  success : Bool
  replaced : Bool
  control : Nat
deriving Repr, DecidableEq

/-- AtomicGenLock::try_lock (faster-c.cc lines 81-96).  `expected` is
the loaded word with the locked and replaced bits cleared, `desired` is
`expected` with the locked bit set; the CAS succeeds exactly when the
current word equals `expected`, i.e. when locked and replaced are both
clear.  On CAS failure `expected` holds the actual current word and the
out-parameter reports its replaced bit. -/
def try_lock (c : Nat) : TryLockResult :=
  let expected := c % 2 ^ 62
  let desired := expected + 2 ^ 62
  if c = expected then ⟨true, false, desired⟩
  else ⟨false, replacedBit c, c⟩

/-- AtomicGenLock::unlock (faster-c.cc lines 97-107), exactly as coded:
when the argument is true it performs fetch_sub((1<<62)-1), which clears
the locked bit and adds 1 to the gen_number; when the argument is false
it performs fetch_add((1<<63)-(1<<62)+1), which clears the locked bit,
sets the replaced bit and adds 1 to the gen_number.  Both wrap modulo
2^64 as the hardware fetch_add/fetch_sub do. -/
def unlock (c : Nat) (replaced : Bool) : Nat :=
  if replaced then (c + (W64 - (2 ^ 62 - 1))) % W64
  else (c + (2 ^ 63 - 2 ^ 62 + 1)) % W64

/-- sizeof(Value) on the source's layout: an 8-byte atomic control word,
an 8-byte size_ field and an 8-byte length_ field. -/
def sizeofValue : Nat := 24

/-- The record slot (class Value, faster-c.cc lines 113-140): the
generation-lock control word, size_ = sizeof(Value) + capacity, the
current payload length_, and the trailing byte buffer of exactly
`capacity` bytes. -/
structure Value where
  gen_lock_ : Nat
  size_ : Nat
  length_ : Nat
  buf : List Nat
deriving Repr, DecidableEq

/-- The capacity of a slot's trailing buffer, in bytes. -/
def capacity (v : Value) : Nat := v.size_ - sizeofValue

/-- std::memcpy of `src` into the start of `dst`: the first
`src.length` bytes of `dst` are overwritten, the remainder is
untouched, and the buffer keeps its size. -/
def memcpyInto (src dst : List Nat) : List Nat :=
  (src ++ dst.drop src.length).take dst.length

/-- UpsertContext::PutAtomic (faster-c.cc lines 225-244), sequential
semantics.  The spin loop retries try_lock while it fails without
reporting replaced; with no interference the state never changes
between iterations, so the loop either exits on the first attempt or
spins forever — the latter is `none`.  On entry-replaced it returns
false without touching the slot.  Holding the lock it compares
size_ with sizeof(Value) + length: too small releases with
unlock(true) and returns false; otherwise it overwrites length_ and
the buffer (never size_), releases with unlock(false) and returns
true. -/
def PutAtomic (v : Value) (input : List Nat) : Option (Bool × Value) :=
  let t := try_lock v.gen_lock_
  if t.success then
    if v.size_ < sizeofValue + input.length then
      some (false, { v with gen_lock_ := unlock t.control true })
    else
      some (true, { v with gen_lock_ := unlock t.control false,
                           length_ := input.length,
                           buf := memcpyInto input v.buf })
  else if t.replaced then some (false, v)
  else none

/-- ReadContext::GetAtomic (faster-c.cc lines 168-179) in a sequential
setting: the two loads of the generation lock are consecutive loads of
an undisturbed atomic, so they agree, the do-while exits after one
iteration, and the callback is handed the buffer pointer and length_.
The interleaved behaviour of the same loop is modelled separately
below. -/
def GetAtomicSeq (v : Value) : List Nat × Nat := (v.buf, v.length_)

/-- Which memory region an rmw_callback argument points at: the slot's
own trailing buffer, or the NULL pointer passed for the dry run. -/
inductive Region where
  | slotBuffer
  | nullDst
deriving Repr, DecidableEq

/-- One invocation of the rmw_callback, recorded by which region the
current-payload pointer and the destination pointer designate and which
length arguments were passed. -/
structure CbCall where
  cur : Region
  curLen : Nat
  modLen : Nat
  dst : Region
deriving Repr, DecidableEq

/-- The rmw_callback supplied by the caller of Rmw:
`retLen cur curLen modif modLen isNull` is the uint64_t it returns
(the flag distinguishes the NULL-destination dry run from the real
run, so the two returns may differ for an ill-behaved callback), and
`output cur curLen modif modLen` is the byte string it writes through
the destination pointer on a real run. -/
structure RmwCb where
  retLen : List Nat → Nat → List Nat → Nat → Bool → Nat
  output : List Nat → Nat → List Nat → Nat → List Nat

/-- RmwContext::RmwAtomic (faster-c.cc lines 297-317), sequential
semantics, instrumented with the list of callback invocations made.
After acquiring the lock it first calls the callback with destination
NULL to compute new_length; if size_ < sizeof(Value) + new_length it
releases with unlock(true) and returns false, leaving length_ and the
buffer untouched.  Otherwise it calls the callback again with the
slot's own buffer as both the current-payload pointer and the
destination (the source passes value.buffer() for both), then stores
new_length — the dry run's return, the real call's return being
discarded — into length_, releases with unlock(false) and returns
true.  size_ is never written. -/
def RmwAtomic (cb : RmwCb) (modif : List Nat) (v : Value) :
    Option (Bool × Value × List CbCall) :=
  let t := try_lock v.gen_lock_
  if t.success then
    let new_length := cb.retLen v.buf v.length_ modif modif.length true
    let dryCall : CbCall := ⟨Region.slotBuffer, v.length_, modif.length, Region.nullDst⟩
    if v.size_ < sizeofValue + new_length then
      some (false, { v with gen_lock_ := unlock t.control true }, [dryCall])
    else
      let outBytes := cb.output v.buf v.length_ modif modif.length
      let realCall : CbCall := ⟨Region.slotBuffer, v.length_, modif.length, Region.slotBuffer⟩
      some (true, { v with gen_lock_ := unlock t.control false,
                           length_ := new_length,
                           buf := memcpyInto outBytes v.buf }, [dryCall, realCall])
  else if t.replaced then some (false, v, [])
  else none

/-- One operation of the core applied to a slot, as a transition
relation on slots.  try_lock may be attempted in any state (a failed
CAS leaves the word unchanged); unlock carries its documented
precondition that the caller hold the lock, which a caller can only
have obtained through a successful try_lock, so it appears as an
acquire-release pair; PutAtomic and RmwAtomic are the full protocol
operations. -/
inductive Step : Value → Value → Prop where
  | tryLockStep (v : Value) :
      Step v { v with gen_lock_ := (try_lock v.gen_lock_).control }
  | lockUnlock (v : Value) (b : Bool)
      (h : (try_lock v.gen_lock_).success = true) :
      Step v { v with gen_lock_ := unlock (try_lock v.gen_lock_).control b }
  | put (v : Value) (input : List Nat) (r : Bool) (w : Value)
      (h : PutAtomic v input = some (r, w)) : Step v w
  | rmw (v : Value) (cb : RmwCb) (modif : List Nat) (r : Bool) (w : Value)
      (tr : List CbCall) (h : RmwAtomic cb modif v = some (r, w, tr)) : Step v w

/-
Fine-grained interleaving model of one PutAtomic writer racing one
GetAtomic reader, for the seqlock analysis.  Each shared-memory access
of the source is a separate atomic step.  Writer program counter:
0 = about to attempt try_lock, 1 = lock held, about to size-check and
write length_, 2 = about to memcpy the buffer, 3 = about to unlock,
4 = returned true, 5 = returned false.  Reader program counter, from
the do-while of GetAtomic: 0 = about to load `before`, 1 = about to
capture the buffer pointer and length_, 2 = about to load `after` and
compare gen_numbers, 3 = validated, about to read the bytes through the
captured pointer (the source hands the raw pointer to the callback, so
the bytes are read after validation), 4 = delivered. -/
structure RWCfg where
  slot : Value
  wpc : Nat
  rpc : Nat
  beforeGen : Nat
  capturedLen : Nat
  delivered : Option (List Nat × Nat)
deriving Repr, DecidableEq

/-- One atomic step of the PutAtomic writer (faster-c.cc 225-244)
with payload `input`. -/
def wstep (input : List Nat) (c : RWCfg) : RWCfg :=
  if c.wpc = 0 then
    let t := try_lock c.slot.gen_lock_
    if t.success then { c with slot := { c.slot with gen_lock_ := t.control }, wpc := 1 }
    else if t.replaced then { c with wpc := 5 }
    else c
  else if c.wpc = 1 then
    if c.slot.size_ < sizeofValue + input.length then
      { c with slot := { c.slot with gen_lock_ := unlock c.slot.gen_lock_ true }, wpc := 5 }
    else { c with slot := { c.slot with length_ := input.length }, wpc := 2 }
  else if c.wpc = 2 then
    { c with slot := { c.slot with buf := memcpyInto input c.slot.buf }, wpc := 3 }
  else if c.wpc = 3 then
    { c with slot := { c.slot with gen_lock_ := unlock c.slot.gen_lock_ false }, wpc := 4 }
  else c

/-- One atomic step of the GetAtomic reader (faster-c.cc 168-179). -/
def rstep (c : RWCfg) : RWCfg :=
  if c.rpc = 0 then { c with beforeGen := gen_number c.slot.gen_lock_, rpc := 1 }
  else if c.rpc = 1 then { c with capturedLen := c.slot.length_, rpc := 2 }
  else if c.rpc = 2 then
    if gen_number c.slot.gen_lock_ = c.beforeGen then { c with rpc := 3 }
    else { c with rpc := 0 }
  else if c.rpc = 3 then
    { c with delivered := some (c.slot.buf, c.capturedLen), rpc := 4 }
  else c

/-- Run a schedule: `true` runs one writer step, `false` one reader
step. -/
def runSched (input : List Nat) (sched : List Bool) (c : RWCfg) : RWCfg :=
  sched.foldl (fun cfg b => if b then wstep input cfg else rstep cfg) c

/-- Initial configuration: both threads at their first step. -/
def initCfg (v : Value) : RWCfg := ⟨v, 0, 0, 0, 0, none⟩

/-- The bytes of "hello". -/
def helloBytes : List Nat := [104, 101, 108, 108, 111]

/-- A freshly initialized slot with capacity 16 and length 0
(size_ = sizeof(Value) + 16 = 40). -/
def slot0 : Value := ⟨0, 40, 0, List.replicate 16 0⟩

/-- The slot after the first successful PutAtomic of "hello": the
unlock(false) of the source's success path has set the replaced bit
(control word 2^63 + 1). -/
def slot1 : Value := ⟨2 ^ 63 + 1, 40, 5, helloBytes ++ List.replicate 11 0⟩

/-- The append merge callback of the concrete scenario: the merged
length is old length + modification length, and the merged payload is
the old payload followed by the modification. -/
def appendCb : RmwCb :=
  ⟨fun _ len _ modLen _ => len + modLen,
   fun buf len modif _ => buf.take len ++ modif⟩

/-- A merge callback whose real-run return value (999) differs from
its dry-run return value (old length + modification length), to
exhibit which of the two return values the code stores into
length_. -/
def oddCb : RmwCb :=
  ⟨fun _ len _ modLen isNull => if isNull then len + modLen else 999,
   fun buf len modif _ => buf.take len ++ modif⟩

/-- A retired slot: replaced bit set, unlocked, gen_number 0. -/
def slotR : Value := ⟨2 ^ 63, 40, 0, List.replicate 16 0⟩

/-- Initial slot of the torn-read interleaving: capacity 2
(size_ = 26), holding one byte 7. -/
def slot9 : Value := ⟨0, 26, 1, [7, 0]⟩

/-- Writer payload of the torn-read interleaving. -/
def input9 : List Nat := [9, 9]

/-- The torn-read schedule: the reader loads `before`, captures
length_, validates (gen_numbers agree, the writer has not started);
the writer then runs its whole critical section; finally the reader
performs its post-validation byte read. -/
def sched9 : List Bool := [false, false, false, true, true, true, true, false]

/-- A control word below 2^64 whose locked and replaced bits are both
clear is just a 62-bit gen_number. -/
theorem control_free_lt (c : Nat) (h0 : c < W64)
    (hl : lockedBit c = false) (hr : replacedBit c = false) : c < 2 ^ 62 := by
  simp only [lockedBit, replacedBit, decide_eq_false_iff_not, W64] at hl hr h0
  omega

/-- try_lock on a word with locked and replaced clear succeeds, keeps
the gen_number and sets the locked bit. -/
theorem try_lock_free (c : Nat) (h : c < 2 ^ 62) :
    try_lock c = ⟨true, false, c + 2 ^ 62⟩ := by
  unfold try_lock
  rw [Nat.mod_eq_of_lt h]
  simp

/-- try_lock on a word with the locked or replaced bit set fails,
reports the word's replaced bit and leaves the word unchanged. -/
theorem try_lock_busy (c : Nat) (h : 2 ^ 62 ≤ c) :
    try_lock c = ⟨false, replacedBit c, c⟩ := by
  have hne : ¬ c = c % 2 ^ 62 := by
    have := Nat.mod_lt c (show 0 < 2 ^ 62 by norm_num)
    omega
  unfold try_lock
  rw [if_neg hne]

/-- A word with the replaced bit set is at least 2^63. -/
theorem replaced_ge (c : Nat) (hr : replacedBit c = true) : 2 ^ 63 ≤ c := by
  simp only [replacedBit, decide_eq_true_eq] at hr
  omega

/-- A word with the locked bit set is at least 2^62. -/
theorem locked_ge (c : Nat) (hl : lockedBit c = true) : 2 ^ 62 ≤ c := by
  simp only [lockedBit, decide_eq_true_eq] at hl
  omega

/-- Claim C1: the spec assigns unlock(false) the normal release (clear
locked, gen + 1, replaced stays false) and unlock(true) the terminal
release (clear locked, set replaced, gen + 1).  Evaluating the code at
the locked, unreplaced word 2^62 (gen_number 0) shows the two argument
values produce exactly the opposite effects: unlock(false) sets the
replaced bit (retiring the slot) and unlock(true) leaves it clear. -/
theorem C1_unlock_effects_swapped :
    lockedBit (2 ^ 62) = true ∧ replacedBit (2 ^ 62) = false ∧
    gen_number (2 ^ 62) = 0 ∧
    unlock (2 ^ 62) false = 2 ^ 63 + 1 ∧
    replacedBit (2 ^ 63 + 1) = true ∧ lockedBit (2 ^ 63 + 1) = false ∧
    gen_number (2 ^ 63 + 1) = 1 ∧
    unlock (2 ^ 62) true = 1 ∧
    replacedBit 1 = false ∧ lockedBit 1 = false ∧ gen_number 1 = 1 := by
  decide

/-- Claim C2: a single try_lock call, by cases on the current word: if
locked is set and replaced is not, it fails with replaced = false and
the word is unchanged; if replaced is set, it fails with
replaced = true and the word is unchanged; otherwise it succeeds,
setting the locked bit while keeping the gen_number and leaving
replaced clear. -/
theorem C2_try_lock_cases (c : Nat) (h0 : c < W64) :
    (lockedBit c = true → replacedBit c = false →
        try_lock c = ⟨false, false, c⟩) ∧
    (replacedBit c = true → try_lock c = ⟨false, true, c⟩) ∧
    (lockedBit c = false → replacedBit c = false →
        try_lock c = ⟨true, false, c + 2 ^ 62⟩ ∧
        gen_number (c + 2 ^ 62) = gen_number c ∧
        lockedBit (c + 2 ^ 62) = true ∧
        replacedBit (c + 2 ^ 62) = false) := by
  refine ⟨fun hl hr => ?_, fun hr => ?_, fun hl hr => ?_⟩
  · rw [try_lock_busy c (locked_ge c hl), hr]
  · rw [try_lock_busy c (le_trans (by norm_num) (replaced_ge c hr)), hr]
  · have hc := control_free_lt c h0 hl hr
    refine ⟨try_lock_free c hc, ?_, ?_, ?_⟩
    · simp only [gen_number]
      omega
    · simp only [lockedBit, decide_eq_true_eq]
      omega
    · simp only [replacedBit, decide_eq_false_iff_not]
      omega

/-- Witness for C2 at the concrete words 2^62 (locked), 2^63
(replaced) and 5 (free). -/
theorem C2_try_lock_cases_witness :
    ((2 ^ 62 : Nat) < W64 ∧
      (lockedBit (2 ^ 62) = true → replacedBit (2 ^ 62) = false →
        try_lock (2 ^ 62) = ⟨false, false, 2 ^ 62⟩)) ∧
    ((2 ^ 63 : Nat) < W64 ∧
      (replacedBit (2 ^ 63) = true → try_lock (2 ^ 63) = ⟨false, true, 2 ^ 63⟩)) ∧
    ((5 : Nat) < W64 ∧
      (lockedBit 5 = false → replacedBit 5 = false →
        try_lock 5 = ⟨true, false, 5 + 2 ^ 62⟩ ∧
        gen_number (5 + 2 ^ 62) = gen_number 5 ∧
        lockedBit (5 + 2 ^ 62) = true ∧
        replacedBit (5 + 2 ^ 62) = false)) :=
  ⟨⟨by decide, (C2_try_lock_cases (2 ^ 62) (by decide)).1⟩,
   ⟨by decide, (C2_try_lock_cases (2 ^ 63) (by decide)).2.1⟩,
   ⟨by decide, (C2_try_lock_cases 5 (by decide)).2.2⟩⟩

/-- Claim C8: on every locked word, unlock with either argument
advances the gen_number by exactly 1 modulo the 62-bit field width. -/
theorem C8_gen_plus_one (c : Nat) (h0 : c < W64) (hl : lockedBit c = true)
    (b : Bool) : gen_number (unlock c b) = (gen_number c + 1) % 2 ^ 62 := by
  cases b <;>
    simp only [unlock, gen_number, W64, if_true, if_false, Bool.false_eq_true] <;>
    omega

/-- Claim C3: the concrete scenario, evaluated on the code.  The first
PutAtomic of "hello" succeeds and a read returns "hello" with length 5,
but the success-path unlock(false) has set the replaced bit, retiring
the slot.  The 34-byte PutAtomic then returns failure (Superseded)
with the slot unchanged and a read still gives "hello"/5 — but the
final RmwAtomic, which the claim says succeeds with "hello!"/6, also
returns failure (its try_lock observes the replaced bit and it never
invokes the merge callback), and the read still gives "hello"/5. -/
theorem C3_scenario_rmw_rejected :
    PutAtomic slot0 helloBytes = some (true, slot1) ∧
    GetAtomicSeq slot1 = (slot1.buf, 5) ∧
    slot1.buf.take 5 = helloBytes ∧
    replacedBit slot1.gen_lock_ = true ∧
    PutAtomic slot1 (List.replicate 34 97) = some (false, slot1) ∧
    GetAtomicSeq slot1 = (slot1.buf, 5) ∧
    RmwAtomic appendCb [33] slot1 = some (false, slot1, []) ∧
    (GetAtomicSeq slot1).2 = 5 ∧ (GetAtomicSeq slot1).1.take 5 = helloBytes := by
  decide

/-- Claim C4: on an unlocked, unreplaced slot, PutAtomic of any payload
that fits the capacity succeeds, and a sequential GetAtomic of the
resulting slot delivers the written length and a buffer whose first
`length` bytes — the bytes the callback's client reads — are exactly
the written payload. -/
theorem C4_put_roundtrip (v : Value) (input : List Nat)
    (h0 : v.gen_lock_ < W64) (hl : lockedBit v.gen_lock_ = false)
    (hr : replacedBit v.gen_lock_ = false)
    (hsz : sizeofValue ≤ v.size_)
    (hcap : input.length ≤ capacity v)
    (hbuf : v.buf.length = capacity v) :
    ∃ w : Value, PutAtomic v input = some (true, w) ∧
      GetAtomicSeq w = (w.buf, input.length) ∧
      w.buf.take input.length = input := by
  have hc := control_free_lt _ h0 hl hr
  have hns : ¬ v.size_ < sizeofValue + input.length := by
    unfold capacity at hcap
    unfold sizeofValue at hsz hcap ⊢
    omega
  refine ⟨{ v with gen_lock_ := unlock (v.gen_lock_ + 2 ^ 62) false,
                   length_ := input.length,
                   buf := memcpyInto input v.buf }, ?_, rfl, ?_⟩
  · simp [PutAtomic, try_lock_free _ hc, hns]
  · have h1 : input.length ≤ v.buf.length := by omega
    unfold memcpyInto
    rw [List.take_take, Nat.min_eq_left h1, List.take_left]

/-- Witness for C4: the "hello" payload into the fresh capacity-16
slot. -/
theorem C4_put_roundtrip_witness :
    (slot0.gen_lock_ < W64 ∧ lockedBit slot0.gen_lock_ = false ∧
     replacedBit slot0.gen_lock_ = false ∧ sizeofValue ≤ slot0.size_ ∧
     helloBytes.length ≤ capacity slot0 ∧ slot0.buf.length = capacity slot0) ∧
    ∃ w : Value, PutAtomic slot0 helloBytes = some (true, w) ∧
      GetAtomicSeq w = (w.buf, helloBytes.length) ∧
      w.buf.take helloBytes.length = helloBytes :=
  ⟨⟨by decide, by decide, by decide, by decide, by decide, by decide⟩,
   C4_put_roundtrip slot0 helloBytes (by decide) (by decide) (by decide)
     (by decide) (by decide) (by decide)⟩

/-- Claim C5: on an unlocked, unreplaced slot, PutAtomic of any payload
longer than the capacity fails, and the resulting slot has exactly the
prior length_, buffer bytes and size_ — the rejected payload is never
written. -/
theorem C5_put_reject_untouched (v : Value) (input : List Nat)
    (h0 : v.gen_lock_ < W64) (hl : lockedBit v.gen_lock_ = false)
    (hr : replacedBit v.gen_lock_ = false)
    (hsz : sizeofValue ≤ v.size_)
    (hcap : capacity v < input.length) :
    ∃ w : Value, PutAtomic v input = some (false, w) ∧
      w.length_ = v.length_ ∧ w.buf = v.buf ∧ w.size_ = v.size_ := by
  have hc := control_free_lt _ h0 hl hr
  have hsm : v.size_ < sizeofValue + input.length := by
    unfold capacity at hcap
    unfold sizeofValue at hsz hcap ⊢
    omega
  exact ⟨{ v with gen_lock_ := unlock (v.gen_lock_ + 2 ^ 62) true },
    by simp [PutAtomic, try_lock_free _ hc, hsm], rfl, rfl, rfl⟩

/-- Witness for C5: the 34-byte payload against the capacity-16
slot. -/
theorem C5_put_reject_untouched_witness :
    (slot0.gen_lock_ < W64 ∧ lockedBit slot0.gen_lock_ = false ∧
     replacedBit slot0.gen_lock_ = false ∧ sizeofValue ≤ slot0.size_ ∧
     capacity slot0 < (List.replicate 34 97).length) ∧
    ∃ w : Value, PutAtomic slot0 (List.replicate 34 97) = some (false, w) ∧
      w.length_ = slot0.length_ ∧ w.buf = slot0.buf ∧ w.size_ = slot0.size_ :=
  ⟨⟨by decide, by decide, by decide, by decide, by decide⟩,
   C5_put_reject_untouched slot0 (List.replicate 34 97) (by decide)
     (by decide) (by decide) (by decide) (by decide)⟩

/-- Witness for C8 at the locked word 2^62 + 7 (gen_number 7), both
argument values. -/
theorem C8_gen_plus_one_witness :
    (2 ^ 62 + 7 : Nat) < W64 ∧ lockedBit (2 ^ 62 + 7) = true ∧
    gen_number (unlock (2 ^ 62 + 7) false) = (gen_number (2 ^ 62 + 7) + 1) % 2 ^ 62 ∧
    gen_number (unlock (2 ^ 62 + 7) true) = (gen_number (2 ^ 62 + 7) + 1) % 2 ^ 62 :=
  ⟨by decide, by decide,
   C8_gen_plus_one (2 ^ 62 + 7) (by decide) (by decide) false,
   C8_gen_plus_one (2 ^ 62 + 7) (by decide) (by decide) true⟩

/-- Claim C6: RmwAtomic on an unlocked, unreplaced slot.  Its first
callback invocation is the dry run (current payload pointer is the
slot buffer, destination is NULL).  If the capacity is below the dry
run's computed length it returns false with only the gen lock changed
— by the call unlock(control, true) — leaving length_, the buffer and
size_ exactly as they were.  Otherwise it returns true, the buffer is
overwritten in place with the callback's real-run output, length_
becomes the computed length, the release is the call
unlock(control, false), and size_ is again unchanged. -/
theorem C6_rmw_branches (v : Value) (cb : RmwCb) (modif : List Nat)
    (h0 : v.gen_lock_ < W64) (hl : lockedBit v.gen_lock_ = false)
    (hr : replacedBit v.gen_lock_ = false) (hsz : sizeofValue ≤ v.size_) :
    (capacity v < cb.retLen v.buf v.length_ modif modif.length true →
      RmwAtomic cb modif v =
        some (false,
          { v with gen_lock_ := unlock (v.gen_lock_ + 2 ^ 62) true },
          [⟨Region.slotBuffer, v.length_, modif.length, Region.nullDst⟩])) ∧
    (cb.retLen v.buf v.length_ modif modif.length true ≤ capacity v →
      RmwAtomic cb modif v =
        some (true,
          { v with gen_lock_ := unlock (v.gen_lock_ + 2 ^ 62) false,
                   length_ := cb.retLen v.buf v.length_ modif modif.length true,
                   buf := memcpyInto (cb.output v.buf v.length_ modif modif.length) v.buf },
          [⟨Region.slotBuffer, v.length_, modif.length, Region.nullDst⟩,
           ⟨Region.slotBuffer, v.length_, modif.length, Region.slotBuffer⟩])) := by
  have hc := control_free_lt _ h0 hl hr
  constructor
  · intro hcap
    have hsm : v.size_ < sizeofValue + cb.retLen v.buf v.length_ modif modif.length true := by
      unfold capacity at hcap
      unfold sizeofValue at hsz hcap ⊢
      omega
    simp [RmwAtomic, try_lock_free _ hc, hsm]
  · intro hcap
    have hns : ¬ v.size_ < sizeofValue + cb.retLen v.buf v.length_ modif modif.length true := by
      unfold capacity at hcap
      unfold sizeofValue at hsz hcap ⊢
      omega
    simp [RmwAtomic, try_lock_free _ hc, hns]

/-- Witness for C6: the append callback on the "hello" slot (taking
the committing branch, merged length 6 at most capacity 16), stated
for both implications at that input. -/
theorem C6_rmw_branches_witness :
    (slot0.gen_lock_ < W64 ∧ lockedBit slot0.gen_lock_ = false ∧
     replacedBit slot0.gen_lock_ = false ∧ sizeofValue ≤ slot0.size_) ∧
    ((capacity slot0 < appendCb.retLen slot0.buf slot0.length_ [33] 1 true →
      RmwAtomic appendCb [33] slot0 =
        some (false,
          { slot0 with gen_lock_ := unlock (slot0.gen_lock_ + 2 ^ 62) true },
          [⟨Region.slotBuffer, slot0.length_, 1, Region.nullDst⟩])) ∧
     (appendCb.retLen slot0.buf slot0.length_ [33] 1 true ≤ capacity slot0 →
      RmwAtomic appendCb [33] slot0 =
        some (true,
          { slot0 with gen_lock_ := unlock (slot0.gen_lock_ + 2 ^ 62) false,
                       length_ := appendCb.retLen slot0.buf slot0.length_ [33] 1 true,
                       buf := memcpyInto (appendCb.output slot0.buf slot0.length_ [33] 1) slot0.buf },
          [⟨Region.slotBuffer, slot0.length_, 1, Region.nullDst⟩,
           ⟨Region.slotBuffer, slot0.length_, 1, Region.slotBuffer⟩]))) :=
  ⟨⟨by decide, by decide, by decide, by decide⟩,
   C6_rmw_branches slot0 appendCb [33] (by decide) (by decide) (by decide) (by decide)⟩

/-- Claim C10: on the committing path of RmwAtomic, the second (real)
callback invocation gets the slot's own buffer both as the
current-payload pointer and as the destination (the two regions
coincide), with the pre-merge length_ as the current length; and the
length_ stored afterwards is the dry run's computed length — the model
never consults the callback's real-run return value, so this holds for
every callback, including one whose two returns differ. -/
theorem C10_real_call_aliases (v : Value) (cb : RmwCb) (modif : List Nat)
    (h0 : v.gen_lock_ < W64) (hl : lockedBit v.gen_lock_ = false)
    (hr : replacedBit v.gen_lock_ = false) (hsz : sizeofValue ≤ v.size_)
    (hfit : cb.retLen v.buf v.length_ modif modif.length true ≤ capacity v) :
    ∃ w : Value, RmwAtomic cb modif v =
      some (true, w,
        [⟨Region.slotBuffer, v.length_, modif.length, Region.nullDst⟩,
         ⟨Region.slotBuffer, v.length_, modif.length, Region.slotBuffer⟩]) ∧
      w.length_ = cb.retLen v.buf v.length_ modif modif.length true := by
  have hc := control_free_lt _ h0 hl hr
  have hns : ¬ v.size_ < sizeofValue + cb.retLen v.buf v.length_ modif modif.length true := by
    unfold capacity at hfit
    unfold sizeofValue at hsz hfit ⊢
    omega
  exact ⟨{ v with gen_lock_ := unlock (v.gen_lock_ + 2 ^ 62) false,
                  length_ := cb.retLen v.buf v.length_ modif modif.length true,
                  buf := memcpyInto (cb.output v.buf v.length_ modif modif.length) v.buf },
    by simp [RmwAtomic, try_lock_free _ hc, hns], rfl⟩

/-- Witness for C10: a callback whose real-run return (999) differs
from its dry-run return (6), on the "hello" slot; length_ ends up 6. -/
theorem C10_real_call_aliases_witness :
    (slot0.gen_lock_ < W64 ∧ lockedBit slot0.gen_lock_ = false ∧
     replacedBit slot0.gen_lock_ = false ∧ sizeofValue ≤ slot0.size_ ∧
     oddCb.retLen slot0.buf slot0.length_ [33] 1 true ≤ capacity slot0) ∧
    ∃ w : Value, RmwAtomic oddCb [33] slot0 =
      some (true, w,
        [⟨Region.slotBuffer, slot0.length_, 1, Region.nullDst⟩,
         ⟨Region.slotBuffer, slot0.length_, 1, Region.slotBuffer⟩]) ∧
      w.length_ = oddCb.retLen slot0.buf slot0.length_ [33] 1 true :=
  ⟨⟨by decide, by decide, by decide, by decide, by decide⟩,
   C10_real_call_aliases slot0 oddCb [33] (by decide) (by decide) (by decide)
     (by decide) (by decide)⟩

/-- PutAtomic on a slot whose replaced bit is set fails immediately
without touching the slot: the spin loop's first try_lock reports
replaced, so the loop exits and the protocol returns false. -/
theorem PutAtomic_replaced (v : Value) (input : List Nat)
    (hr : replacedBit v.gen_lock_ = true) :
    PutAtomic v input = some (false, v) := by
  have hbusy : try_lock v.gen_lock_ = ⟨false, true, v.gen_lock_⟩ := by
    rw [try_lock_busy _ (le_trans (by norm_num) (replaced_ge _ hr)), hr]
  simp [PutAtomic, hbusy]

/-- RmwAtomic on a slot whose replaced bit is set fails immediately
without touching the slot and without invoking the callback. -/
theorem RmwAtomic_replaced (cb : RmwCb) (modif : List Nat) (v : Value)
    (hr : replacedBit v.gen_lock_ = true) :
    RmwAtomic cb modif v = some (false, v, []) := by
  have hbusy : try_lock v.gen_lock_ = ⟨false, true, v.gen_lock_⟩ := by
    rw [try_lock_busy _ (le_trans (by norm_num) (replaced_ge _ hr)), hr]
  simp [RmwAtomic, hbusy]

/-- Claim C7: retirement is terminal.  On any slot whose replaced bit
is set, try_lock fails, and any operation of the core — a try_lock
attempt, an acquire-release pair (unlock's precondition is a held
lock, obtainable only through a successful try_lock), a PutAtomic or
an RmwAtomic — leaves the slot unchanged, so the replaced bit stays
set. -/
theorem C7_retirement_terminal (v w : Value)
    (hr : replacedBit v.gen_lock_ = true) (hs : Step v w) :
    (try_lock v.gen_lock_).success = false ∧ w = v ∧
      replacedBit w.gen_lock_ = true := by
  have hbusy : try_lock v.gen_lock_ = ⟨false, true, v.gen_lock_⟩ := by
    rw [try_lock_busy _ (le_trans (by norm_num) (replaced_ge _ hr)), hr]
  have hsucc : (try_lock v.gen_lock_).success = false := by rw [hbusy]
  cases hs with
  | tryLockStep =>
    rw [hbusy]
    exact ⟨rfl, rfl, hr⟩
  | lockUnlock b h =>
    rw [h] at hsucc
    exact absurd hsucc (by simp)
  | put input r w2 h =>
    rw [PutAtomic_replaced v input hr] at h
    simp only [Option.some.injEq, Prod.mk.injEq] at h
    rw [← h.2]
    exact ⟨hsucc, rfl, hr⟩
  | rmw cb modif r w2 tr h =>
    rw [RmwAtomic_replaced cb modif v hr] at h
    simp only [Option.some.injEq, Prod.mk.injEq] at h
    rw [← h.2.1]
    exact ⟨hsucc, rfl, hr⟩

/-- Witness for C7 at the retired slot, with the step being a
PutAtomic attempt that fails and leaves the slot unchanged. -/
theorem C7_retirement_terminal_witness :
    replacedBit slotR.gen_lock_ = true ∧
    ((try_lock slotR.gen_lock_).success = false ∧ slotR = slotR ∧
      replacedBit slotR.gen_lock_ = true) :=
  ⟨by decide,
   C7_retirement_terminal slotR slotR (by decide)
     (Step.put slotR helloBytes false slotR (by decide))⟩

/-- Claim C9: refuted on the code by an explicit interleaving.  The
reader validates its seqlock window before the writer starts (both
gen_number loads return 0), then the writer runs its entire critical
section, and only then does the reader read the bytes through the
pointer it hands to the callback: it delivers the post-update bytes
[9, 9] paired with the pre-update length 1 — neither the complete
pre-update pair ([7, 0], 1) nor the complete post-update pair
([9, 9], 2). -/
theorem C9_counterexample_torn_pair :
    (runSched input9 sched9 (initCfg slot9)).delivered = some ([9, 9], 1) ∧
    (runSched input9 sched9 (initCfg slot9)).wpc = 4 ∧
    (([9, 9], 1) : List Nat × Nat) ≠ (slot9.buf, slot9.length_) ∧
    (([9, 9], 1) : List Nat × Nat) ≠ (memcpyInto input9 slot9.buf, input9.length) := by
  decide

/-- Running the empty schedule changes nothing. -/
theorem runSched_nil (input : List Nat) (c : RWCfg) :
    runSched input [] c = c := rfl

/-- Running a schedule that starts with a writer step. -/
theorem runSched_cons_w (input : List Nat) (s : List Bool) (c : RWCfg) :
    runSched input (true :: s) c = runSched input s (wstep input c) := rfl

/-- Running a schedule that starts with a reader step. -/
theorem runSched_cons_r (input : List Nat) (s : List Bool) (c : RWCfg) :
    runSched input (false :: s) c = runSched input s (rstep c) := rfl

/-- Claim C9 as amended: when the reader's loop and byte read do not
overlap any writer step, GetAtomic delivers a complete pair — the
pre-update buffer and length if the read completes before the writer
begins, and the post-update buffer and length once the writer has
fully committed. -/
theorem C9_nonoverlapping_reads_consistent (v : Value) (input : List Nat)
    (h0 : v.gen_lock_ < W64) (hl : lockedBit v.gen_lock_ = false)
    (hr : replacedBit v.gen_lock_ = false)
    (hfit : sizeofValue + input.length ≤ v.size_) :
    (runSched input [false, false, false, false] (initCfg v)).delivered
        = some (v.buf, v.length_) ∧
    (runSched input [true, true, true, true, false, false, false, false]
        (initCfg v)).delivered
        = some (memcpyInto input v.buf, input.length) := by
  have hc := control_free_lt _ h0 hl hr
  have hns : ¬ v.size_ < sizeofValue + input.length := by omega
  constructor
  · simp [runSched_cons_r, runSched_nil, initCfg, rstep]
  · have h1 : wstep input (initCfg v) =
        ⟨⟨v.gen_lock_ + 2 ^ 62, v.size_, v.length_, v.buf⟩, 1, 0, 0, 0, none⟩ := by
      simp [initCfg, wstep, try_lock_free _ hc]
    have h2 : wstep input (⟨⟨v.gen_lock_ + 2 ^ 62, v.size_, v.length_, v.buf⟩, 1, 0, 0, 0, none⟩ : RWCfg) =
        ⟨⟨v.gen_lock_ + 2 ^ 62, v.size_, input.length, v.buf⟩, 2, 0, 0, 0, none⟩ := by
      simp [wstep, hns]
    have h3 : wstep input (⟨⟨v.gen_lock_ + 2 ^ 62, v.size_, input.length, v.buf⟩, 2, 0, 0, 0, none⟩ : RWCfg) =
        ⟨⟨v.gen_lock_ + 2 ^ 62, v.size_, input.length, memcpyInto input v.buf⟩, 3, 0, 0, 0, none⟩ := by
      simp [wstep]
    have h4 : wstep input (⟨⟨v.gen_lock_ + 2 ^ 62, v.size_, input.length, memcpyInto input v.buf⟩, 3, 0, 0, 0, none⟩ : RWCfg) =
        ⟨⟨unlock (v.gen_lock_ + 2 ^ 62) false, v.size_, input.length, memcpyInto input v.buf⟩, 4, 0, 0, 0, none⟩ := by
      simp [wstep]
    have r1 : rstep (⟨⟨unlock (v.gen_lock_ + 2 ^ 62) false, v.size_, input.length, memcpyInto input v.buf⟩, 4, 0, 0, 0, none⟩ : RWCfg) =
        ⟨⟨unlock (v.gen_lock_ + 2 ^ 62) false, v.size_, input.length, memcpyInto input v.buf⟩, 4, 1, gen_number (unlock (v.gen_lock_ + 2 ^ 62) false), 0, none⟩ := by
      simp [rstep]
    have r2 : rstep (⟨⟨unlock (v.gen_lock_ + 2 ^ 62) false, v.size_, input.length, memcpyInto input v.buf⟩, 4, 1, gen_number (unlock (v.gen_lock_ + 2 ^ 62) false), 0, none⟩ : RWCfg) =
        ⟨⟨unlock (v.gen_lock_ + 2 ^ 62) false, v.size_, input.length, memcpyInto input v.buf⟩, 4, 2, gen_number (unlock (v.gen_lock_ + 2 ^ 62) false), input.length, none⟩ := by
      simp [rstep]
    have r3 : rstep (⟨⟨unlock (v.gen_lock_ + 2 ^ 62) false, v.size_, input.length, memcpyInto input v.buf⟩, 4, 2, gen_number (unlock (v.gen_lock_ + 2 ^ 62) false), input.length, none⟩ : RWCfg) =
        ⟨⟨unlock (v.gen_lock_ + 2 ^ 62) false, v.size_, input.length, memcpyInto input v.buf⟩, 4, 3, gen_number (unlock (v.gen_lock_ + 2 ^ 62) false), input.length, none⟩ := by
      simp [rstep]
    have r4 : rstep (⟨⟨unlock (v.gen_lock_ + 2 ^ 62) false, v.size_, input.length, memcpyInto input v.buf⟩, 4, 3, gen_number (unlock (v.gen_lock_ + 2 ^ 62) false), input.length, none⟩ : RWCfg) =
        ⟨⟨unlock (v.gen_lock_ + 2 ^ 62) false, v.size_, input.length, memcpyInto input v.buf⟩, 4, 4, gen_number (unlock (v.gen_lock_ + 2 ^ 62) false), input.length, some (memcpyInto input v.buf, input.length)⟩ := by
      simp [rstep]
    rw [runSched_cons_w, h1, runSched_cons_w, h2, runSched_cons_w, h3,
      runSched_cons_w, h4, runSched_cons_r, r1, runSched_cons_r, r2,
      runSched_cons_r, r3, runSched_cons_r, r4, runSched_nil]

/-- Witness for the amended C9 at the concrete torn-read slot and
payload. -/
theorem C9_nonoverlapping_reads_consistent_witness :
    (slot9.gen_lock_ < W64 ∧ lockedBit slot9.gen_lock_ = false ∧
     replacedBit slot9.gen_lock_ = false ∧
     sizeofValue + input9.length ≤ slot9.size_) ∧
    ((runSched input9 [false, false, false, false] (initCfg slot9)).delivered
        = some (slot9.buf, slot9.length_) ∧
     (runSched input9 [true, true, true, true, false, false, false, false]
        (initCfg slot9)).delivered
        = some (memcpyInto input9 slot9.buf, input9.length)) :=
  ⟨⟨by decide, by decide, by decide, by decide⟩,
   C9_nonoverlapping_reads_consistent slot9 input9 (by decide) (by decide)
     (by decide) (by decide)⟩

end FasterC
